import Mathlib

/-!
Verification of the `dbgen` struct-tag-driven code generator
(`src/dbgen/main.go` of github.com/paulstuart/dbobj).

The development shallowly embeds the generator's pure core:

* `sqlTags`   — the tag parser / metadata aggregator (main.go:359-406),
* `genDecl`'s descriptor collection (main.go:409-423) as `genDeclValue` /
  `fileValues`,
* `buildWrappers` — the method synthesizer (main.go:426-477) together with
  the literal text templates (main.go:484-682).

Struct tags are modelled as association lists of key/value pairs: the Go
code reads a tag only through `reflect.StructTag.Get`, which returns the
value of the first occurrence of a key, or the empty string.  Go maps with
string keys (`Fields`, `NoUpdate`) are modelled as association lists with
overwrite-on-assign (`assocSet`) and membership (`List.contains`), which
has the same lookup semantics; map iteration is never used by the code.
Go `len(s) > 0` on strings is written `s ≠ ""`.
-/

namespace Dbgen

/-- Embedding of Go `strconv.ParseBool` (used at main.go:394): accepts the
twelve literal spellings and fails on everything else. -/
def parseBool : String → Option Bool
  | "1" | "t" | "T" | "true" | "TRUE" | "True" => some true
  | "0" | "f" | "F" | "false" | "FALSE" | "False" => some false
  | _ => none

/-- A struct tag, as the list of its key/value pairs in source order. -/
abbrev Tag := List (String × String)

/-- Embedding of `reflect.StructTag.Get`: the value of the first pair with
the given key, or `""` when the key is absent. -/
def tagGet (t : Tag) (k : String) : String :=
  match t.find? (fun p => p.1 = k) with
  | some p => p.2
  | none => ""

/-- One struct field, as seen by `sqlTags`: its (first) name and its tag,
`none` when the field carries no tag (Go `field.Tag == nil`). -/
structure Field where
  name : String
  tag : Option Tag
deriving Repr, DecidableEq

/-- The result of `reflect.StructTag.Get` for a field: `""` when the field
has no tag at all (the Go code then skips the field's whole loop body,
which is equivalent because every branch is guarded by a non-empty get). -/
def fget (f : Field) (k : String) : String :=
  match f.tag with
  | some t => tagGet t k
  | none => ""

/-- Embedding of the `SQLInfo` record (main.go:102-112).  `Fields` is the
`map[string]string` from member name to sql column; `NoUpdate` is the
`map[string]struct\x7b\x7d` used as a set of member names. -/
structure SQLInfo where
  Name : String := ""
  Table : String := ""
  KeyName : String := ""
  KeyField : String := ""
  UserField : String := ""
  TimeField : String := ""
  Order : List String := []
  Fields : List (String × String) := []
  NoUpdate : List String := []
deriving Repr, DecidableEq

/-- Go map assignment `m[k] = v`: overwrite the binding if present, append
it otherwise. -/
def assocSet (m : List (String × String)) (k v : String) : List (String × String) :=
  match m with
  | [] => [(k, v)]
  | (k0, v0) :: rest => if k0 = k then (k, v) :: rest else (k0, v0) :: assocSet rest k v

/-- Go map lookup `m[k]` with the zero value `""` for a missing key. -/
def assocGet (m : List (String × String)) (k : String) : String :=
  match m.find? (fun p => p.1 = k) with
  | some p => p.2
  | none => ""

/-- Go set insertion `m[k] = struct\x7b\x7d\x7b\x7d`. -/
def setAdd (s : List String) (k : String) : List String :=
  if s.contains k then s else s ++ [k]

/-- The `sql`-guarded part of the `sqlTags` loop body, table clause
(main.go:372-374). -/
def stepSqlTable (tag : Tag) (info : SQLInfo) : SQLInfo :=
  if tagGet tag "table" ≠ "" then { info with Table := tagGet tag "table" } else info

/-- The `sql`-guarded part of the `sqlTags` loop body, key/field clause
(main.go:375-381): a keyed field sets `KeyName`/`KeyField`, any other
field is appended to `Fields`/`Order`. -/
def stepSqlKey (f : Field) (tag : Tag) (info : SQLInfo) : SQLInfo :=
  if tagGet tag "key" ≠ "" then
    { info with KeyName := f.name, KeyField := tagGet tag "sql" }
  else
    { info with Fields := assocSet info.Fields f.name (tagGet tag "sql"),
                Order := info.Order ++ [f.name] }

/-- The `if sql := tag.Get("sql"); len(sql) > 0` block of `sqlTags`
(main.go:370-383), also returning the updated `good` flag. -/
def stepSql (f : Field) (tag : Tag) (info : SQLInfo) (good : Bool) : SQLInfo × Bool :=
  if tagGet tag "sql" ≠ "" then
    (stepSqlKey f tag (stepSqlTable tag info), true)
  else (info, good)

/-- The `audit` clause of the `sqlTags` loop body (main.go:384-392). -/
def stepAudit (f : Field) (tag : Tag) (info : SQLInfo) : SQLInfo :=
  if tagGet tag "audit" ≠ "" then
    if tagGet tag "audit" = "user" then { info with UserField := f.name }
    else if tagGet tag "audit" = "time" then { info with TimeField := f.name }
    else info
  else info

/-- The `update` clause of the `sqlTags` loop body (main.go:393-399): a
value that `ParseBool` reads as `false` adds the member name to
`NoUpdate`. -/
def stepUpdate (f : Field) (tag : Tag) (info : SQLInfo) : SQLInfo :=
  if tagGet tag "update" ≠ "" then
    match parseBool (tagGet tag "update") with
    | some false => { info with NoUpdate := setAdd info.NoUpdate f.name }
    | _ => info
  else info

/-- One iteration of the `sqlTags` field loop (main.go:365-401).  A field
without a tag is skipped entirely. -/
def sqlTagsStep (acc : SQLInfo × Bool) (f : Field) : SQLInfo × Bool :=
  match f.tag with
  | none => acc
  | some tag =>
    let r := stepSql f tag acc.1 acc.2
    (stepUpdate f tag (stepAudit f tag r.1), r.2)

/-- Embedding of `sqlTags` (main.go:359-406): fold the loop body over the
fields and return the accumulated record only when some field produced a
non-empty `sql` value (`good`). -/
def sqlTags (fields : List Field) : Option SQLInfo :=
  let r := fields.foldl sqlTagsStep (({} : SQLInfo), false)
  if r.2 then some r.1 else none

/-- Fields that produce a non-empty `sql` value. -/
def sqlB (f : Field) : Bool := decide (fget f "sql" ≠ "")

/-- Persisted non-key fields: non-empty `sql`, empty `key` tag.  These are
exactly the fields appended to `Fields`/`Order`. -/
def pnkB (f : Field) : Bool := decide (fget f "sql" ≠ "" ∧ fget f "key" = "")

/-- Key fields: non-empty `sql` and non-empty `key` tag. -/
def keyB (f : Field) : Bool := decide (fget f "sql" ≠ "" ∧ fget f "key" ≠ "")

/-- Fields whose tag sets the table name: non-empty `sql` and `table`. -/
def tblB (f : Field) : Bool := decide (fget f "sql" ≠ "" ∧ fget f "table" ≠ "")

/-- Fields whose `update` tag value parses to boolean `false`. -/
def updB (f : Field) : Bool := decide (parseBool (fget f "update") = some false)

/-- Fields carrying `audit:"user"`. -/
def audUB (f : Field) : Bool := decide (fget f "audit" = "user")

/-- Fields carrying `audit:"time"`. -/
def audTB (f : Field) : Bool := decide (fget f "audit" = "time")

/-! ### The method synthesizer `buildWrappers` (main.go:426-477) -/

/-- The six accumulator slices of `buildWrappers` (main.go:427-432). -/
structure BWLists where
  names : List String := []
  elem : List String := []
  ptr : List String := []
  set : List String := []
  sql : List String := []
  insert_fields : List String := []
deriving Repr, DecidableEq

/-- The initial slices (main.go:433-438): the key column seeds `sql`, the
key member's address seeds `ptr`. -/
def bwInit (s : SQLInfo) : BWLists :=
  { sql := if s.KeyField ≠ "" then [s.KeyField] else []
    ptr := if s.KeyName ≠ "" then ["&o." ++ s.KeyName] else [] }

/-- One iteration of the `for _, k := range s.Order` loop
(main.go:439-451).  Note the `NoUpdate` lookup uses the sql column `v`,
while the set stores member names. -/
def bwStep (s : SQLInfo) (acc : BWLists) (k : String) : BWLists :=
  if k ≠ "" then
    let v := assocGet s.Fields k
    { names := acc.names ++ ["\"" ++ k ++ "\""]
      elem := acc.elem ++ ["o." ++ k]
      ptr := acc.ptr ++ ["&o." ++ k]
      set := acc.set ++ [v ++ "=?"]
      sql := acc.sql ++ [v]
      insert_fields :=
        if s.NoUpdate.contains v then acc.insert_fields else acc.insert_fields ++ [v] }
  else acc

/-- The slices after the whole loop of `buildWrappers`. -/
def bwLists (s : SQLInfo) : BWLists := s.Order.foldl (bwStep s) (bwInit s)

/-! The text templates (main.go:484-682), instantiated as the `Printf`
calls of `buildWrappers` instantiate them.  Literal braces of the Go
text are written with their escapes. -/

/-- Template `stringNewObj` (main.go:643-647). -/
def stringNewObj (name : String) : String :=
  "func (o " ++ name ++ ") NewObj() interface\x7b\x7d \x7b\n\treturn new(" ++ name
    ++ ")\n\x7d\n\n"

/-- Template `stringInsertValues` (main.go:516-520). -/
def stringInsertValues (name vals : String) : String :=
  "func (o *" ++ name ++ ") InsertValues() []interface\x7b\x7d \x7b\n\treturn []interface\x7b\x7d\x7b"
    ++ vals ++ "\x7d\n\x7d\n\n"

/-- Template `stringUpdateValues` (main.go:526-530). -/
def stringUpdateValues (name vals : String) : String :=
  "func (o *" ++ name ++ ") UpdateValues() []interface\x7b\x7d \x7b\n\treturn []interface\x7b\x7d\x7b"
    ++ vals ++ "\x7d\n\x7d\n\n"

/-- Template `stringMemberPointers` (main.go:545-549). -/
def stringMemberPointers (name vals : String) : String :=
  "func (o *" ++ name ++ ") MemberPointers() []interface\x7b\x7d \x7b\n\treturn []interface\x7b\x7d\x7b"
    ++ vals ++ "\x7d\n\x7d\n\n"

/-- Template `stringKey` (main.go:554-558). -/
def stringKey (name keyname : String) : String :=
  "func (o *" ++ name ++ ") Key() int64 \x7b\n\treturn o." ++ keyname ++ "\n\x7d\n\n"

/-- Template `stringNoKey` (main.go:563-567). -/
def stringNoKey (name : String) : String :=
  "func (o *" ++ name ++ ") Key() int64 \x7b\n\treturn 0\n\x7d\n\n"

/-- Template `stringSetID` (main.go:572-576). -/
def stringSetID (name keyname : String) : String :=
  "func (o *" ++ name ++ ") SetID(id int64) \x7b\n\to." ++ keyname ++ " = id\n\x7d\n\n"

/-- Template `stringNoSetID` (main.go:581-584). -/
def stringNoSetID (name : String) : String :=
  "func (o *" ++ name ++ ") SetID(id int64) \x7b\n\x7d\n\n"

/-- Template `stringTableName` (main.go:589-593). -/
def stringTableName (name table : String) : String :=
  "func (o *" ++ name ++ ") TableName() string \x7b\n\treturn \"" ++ table ++ "\"\n\x7d\n\n"

/-- Template `stringKeyField` (main.go:598-602). -/
def stringKeyField (name keyfield : String) : String :=
  "func (o *" ++ name ++ ") KeyField() string \x7b\n\treturn \"" ++ keyfield ++ "\"\n\x7d\n\n"

/-- Template `stringKeyName` (main.go:607-611). -/
def stringKeyName (name keyname : String) : String :=
  "func (o *" ++ name ++ ") KeyName() string \x7b\n\treturn \"" ++ keyname ++ "\"\n\x7d\n\n"

/-- Template `stringSelectFields` (main.go:626-630). -/
def stringSelectFields (name fields : String) : String :=
  "func (o *" ++ name ++ ") SelectFields() string \x7b\n\treturn \"" ++ fields ++ "\"\n\x7d\n\n"

/-- Template `stringInsertFields` (main.go:635-639). -/
def stringInsertFields (name fields : String) : String :=
  "func (o *" ++ name ++ ") InsertFields() string \x7b\n\treturn \"" ++ fields ++ "\"\n\x7d\n\n"

/-- Template `stringNames` (main.go:652-656). -/
def stringNames (name names : String) : String :=
  "func (o *" ++ name ++ ") Names() []string \x7b\n\treturn []string\x7b" ++ names
    ++ "\x7d\n\x7d\n\n"

/-- Template `stringSQLGet` (main.go:678-682), instantiated at main.go:469
with the select list for `%[3]s` and `""` for the where part `%[4]s`. -/
def stringSQLGet (name table fields whereFields : String) : String :=
  "func (o *" ++ name ++ ") SQLGet(keys interface\x7b\x7d...) string \x7b\n\treturn \"select "
    ++ fields ++ " from " ++ table ++ " where " ++ whereFields ++ ";\"\n\x7d\n\n"

/-- Embedding of `auditString` (main.go:658-671): the assignment lines are
present exactly when the respective audit field name is non-empty. -/
def auditString (name u t : String) : String :=
  "func (o *" ++ name ++ ") ModifiedBy(user int64, t time.Time) \x7b\n"
    ++ (if u ≠ "" then "o." ++ u ++ " = &user\n" else "")
    ++ (if t ≠ "" then "o." ++ t ++ " = t\n" else "")
    ++ "\x7d\n\n\n"

/-- The argument substituted for the select list in `stringSelectFields`
at main.go:471: `strings.Join(sql, ",")`. -/
def selectFieldsRet (s : SQLInfo) : String := String.intercalate "," (bwLists s).sql

/-- The argument substituted for the insert list in `stringInsertFields`
at main.go:472: also `strings.Join(sql, ",")` (the filtered
`insert_fields` slice is computed at main.go:447-449 but never printed). -/
def insertFieldsRet (s : SQLInfo) : String := String.intercalate "," (bwLists s).sql

/-- The value list joined into `stringInsertValues` at main.go:455: the
`elem` slice before the key is appended. -/
def insertValuesList (s : SQLInfo) : List String := (bwLists s).elem

/-- The value list joined into `stringUpdateValues` at main.go:456-459:
`elem` with `"o."+KeyName` appended when a key name is present. -/
def updateValuesList (s : SQLInfo) : List String :=
  if s.KeyName ≠ "" then (bwLists s).elem ++ ["o." ++ s.KeyName] else (bwLists s).elem

/-- The pointer list joined into `stringMemberPointers` at main.go:460. -/
def memberPointersList (s : SQLInfo) : List String := (bwLists s).ptr

/-- The table name substituted into `stringTableName` at main.go:470. -/
def tableNameRet (s : SQLInfo) : String := s.Table

/-- Embedding of the whole text that `buildWrappers` appends to the
generator buffer for one descriptor (main.go:452-477), in emission
order. -/
def buildWrappersText (s : SQLInfo) : String :=
  "\n\n//\n// " ++ s.Name ++ " DBObject generator\n//\n"
    ++ stringNewObj s.Name
    ++ "\n//\n// " ++ s.Name ++ " DBObject interface functions\n//\n"
    ++ stringInsertValues s.Name (String.intercalate "," (insertValuesList s))
    ++ stringUpdateValues s.Name (String.intercalate "," (updateValuesList s))
    ++ stringMemberPointers s.Name (String.intercalate "," (memberPointersList s))
    ++ (if s.KeyField ≠ "" then stringKey s.Name s.KeyName ++ stringSetID s.Name s.KeyName
        else stringNoKey s.Name ++ stringNoSetID s.Name)
    ++ stringSQLGet s.Name s.Table (String.intercalate "," (bwLists s).sql) ""
    ++ stringTableName s.Name (tableNameRet s)
    ++ stringSelectFields s.Name (selectFieldsRet s)
    ++ stringInsertFields s.Name (insertFieldsRet s)
    ++ stringKeyField s.Name s.KeyField
    ++ stringKeyName s.Name s.KeyName
    ++ stringNames s.Name (String.intercalate "," (bwLists s).names)
    ++ auditString s.Name s.UserField s.TimeField

/-! ### The scanner and the per-run pipeline (main.go:329-339, 409-423) -/

/-- One struct declaration as the scanner sees it: the type name from the
enclosing `TypeSpec` and the field list. -/
structure StructDecl where
  name : String
  fields : List Field
deriving Repr, DecidableEq

/-- Embedding of the struct branch of `genDecl` (main.go:413-421): a
struct is processed when the filter is empty or equals the type name, and
contributes a descriptor (with `Name` set) only when `sqlTags` returns
one. -/
def genDeclValue (findName : String) (st : StructDecl) : Option SQLInfo :=
  if findName = "" ∨ findName = st.name then
    (sqlTags st.fields).map (fun info => { info with Name := st.name })
  else none

/-- The `values` accumulated for one file by `ast.Inspect` (main.go:333,
417), in declaration order. -/
def fileValues (findName : String) (structs : List StructDecl) : List SQLInfo :=
  structs.filterMap (genDeclValue findName)

/-- Sequential concatenation, modelling consecutive appends to the
generator's output buffer. -/
def genConcat : List String → String
  | [] => ""
  | s :: rest => s ++ genConcat rest

/-- The text one `generate` call (main.go:329-339) appends for a file's
structs: `buildWrappers` output for each collected descriptor in order. -/
def generatorOutput (findName : String) (structs : List StructDecl) : String :=
  genConcat ((fileValues findName structs).map buildWrappersText)

/-! ### Basic lemmas about the helpers -/

theorem ne_empty_of_parseBool_false {u : String} (h : parseBool u = some false) : u ≠ "" := by
  intro he
  rw [he] at h
  simp [parseBool] at h

theorem mem_setAdd {s : List String} {a k : String} :
    k ∈ setAdd s a ↔ k ∈ s ∨ k = a := by
  unfold setAdd
  split_ifs with h
  · constructor
    · exact Or.inl
    · rintro (hc | rfl)
      · exact hc
      · simpa using h
  · simp [List.mem_append]

theorem assocGet_assocSet_self (m : List (String × String)) (k v : String) :
    assocGet (assocSet m k v) k = v := by
  induction m with
  | nil => simp [assocSet, assocGet, List.find?]
  | cons p rest ih =>
    obtain ⟨k0, v0⟩ := p
    by_cases h : k0 = k
    · subst h
      simp [assocSet, assocGet, List.find?]
    · simp only [assocSet, if_neg h]
      simpa [assocGet, List.find?_cons, h] using ih

theorem assocGet_assocSet_ne (m : List (String × String)) {a k : String} (v : String)
    (h : a ≠ k) : assocGet (assocSet m a v) k = assocGet m k := by
  induction m with
  | nil => simp [assocSet, assocGet, List.find?, h]
  | cons p rest ih =>
    obtain ⟨k0, v0⟩ := p
    by_cases h0 : k0 = a
    · subst h0
      simp [assocSet, assocGet, List.find?_cons, h]
    · simp only [assocSet, if_neg h0]
      by_cases hk : k0 = k
      · subst hk
        simp [assocGet, List.find?_cons]
      · simpa [assocGet, List.find?_cons, hk] using ih

/-- A fold that keeps only the last value seen returns the last element of
the list (or the start value for an empty list). -/
theorem foldl_overwrite {α : Type} (l : List α) (a : α) :
    l.foldl (fun _ x => x) a = l.getLast?.getD a := by
  induction l generalizing a with
  | nil => rfl
  | cons x xs ih =>
    rw [List.foldl_cons, ih]
    cases xs with
    | nil => rfl
    | cons y ys =>
      rw [List.getLast?_cons_cons]
      rcases hgl : (y :: ys).getLast? with _ | z
      · exact absurd hgl (by simp)
      · simp [hgl]

/-! ### Characterizing one step of the `sqlTags` loop -/

theorem stepSqlTable_eq (tag : Tag) (i : SQLInfo) :
    stepSqlTable tag i
      = { i with Table := if tagGet tag "table" ≠ "" then tagGet tag "table" else i.Table } := by
  unfold stepSqlTable
  split_ifs <;> rfl

theorem stepAudit_eq (f : Field) (tag : Tag) (i : SQLInfo) :
    stepAudit f tag i
      = { i with UserField := if tagGet tag "audit" = "user" then f.name else i.UserField,
                 TimeField := if tagGet tag "audit" = "time" then f.name else i.TimeField } := by
  unfold stepAudit
  by_cases h1 : tagGet tag "audit" = "user"
  · simp [h1]
  · by_cases h2 : tagGet tag "audit" = "time"
    · simp [h1, h2]
    · by_cases h0 : tagGet tag "audit" = ""
      · simp [h0, h1, h2]
      · simp [h0, h1, h2]

theorem stepUpdate_eq (f : Field) (tag : Tag) (i : SQLInfo) :
    stepUpdate f tag i
      = { i with NoUpdate := if parseBool (tagGet tag "update") = some false
                             then setAdd i.NoUpdate f.name else i.NoUpdate } := by
  unfold stepUpdate
  rcases hu : parseBool (tagGet tag "update") with _ | b
  · simp [hu]
  · cases b
    · have hne := ne_empty_of_parseBool_false hu
      simp [hu, hne]
    · simp [hu]

/-- Master characterization of one iteration of the `sqlTags` loop:
every component of the record after the step, as a function of the field's
tag lookups. -/
theorem sqlTagsStep_eq (acc : SQLInfo × Bool) (f : Field) :
    sqlTagsStep acc f =
      ({ Name := acc.1.Name
         Table := if fget f "sql" ≠ "" ∧ fget f "table" ≠ "" then fget f "table" else acc.1.Table
         KeyName := if fget f "sql" ≠ "" ∧ fget f "key" ≠ "" then f.name else acc.1.KeyName
         KeyField := if fget f "sql" ≠ "" ∧ fget f "key" ≠ "" then fget f "sql" else acc.1.KeyField
         UserField := if fget f "audit" = "user" then f.name else acc.1.UserField
         TimeField := if fget f "audit" = "time" then f.name else acc.1.TimeField
         Order := if fget f "sql" ≠ "" ∧ fget f "key" = "" then acc.1.Order ++ [f.name]
                  else acc.1.Order
         Fields := if fget f "sql" ≠ "" ∧ fget f "key" = ""
                   then assocSet acc.1.Fields f.name (fget f "sql") else acc.1.Fields
         NoUpdate := if parseBool (fget f "update") = some false
                     then setAdd acc.1.NoUpdate f.name else acc.1.NoUpdate },
       acc.2 || sqlB f) := by
  obtain ⟨i, g⟩ := acc
  cases hf : f.tag with
  | none => simp [sqlTagsStep, fget, hf, sqlB, parseBool]
  | some tag =>
    simp only [sqlTagsStep, hf, fget, sqlB]
    unfold stepSql
    by_cases hs : tagGet tag "sql" ≠ ""
    · rw [if_pos hs, stepSqlTable_eq]
      unfold stepSqlKey
      by_cases hk : tagGet tag "key" ≠ ""
      · rw [if_pos hk, stepAudit_eq, stepUpdate_eq]
        simp [hs, hk]
      · rw [if_neg hk, stepAudit_eq, stepUpdate_eq]
        simp only [not_not] at hk
        simp [hs, hk]
    · rw [if_neg hs, stepAudit_eq, stepUpdate_eq]
      simp only [not_not] at hs
      simp [hs]

/-! ### Fold characterizations of `sqlTags` -/

theorem foldl_Name (fs : List Field) (acc : SQLInfo × Bool) :
    ((fs.foldl sqlTagsStep acc).1).Name = acc.1.Name := by
  induction fs generalizing acc with
  | nil => rfl
  | cons f fs ih => rw [List.foldl_cons, ih, sqlTagsStep_eq]

theorem foldl_good (fs : List Field) (acc : SQLInfo × Bool) :
    (fs.foldl sqlTagsStep acc).2 = (acc.2 || fs.any sqlB) := by
  induction fs generalizing acc with
  | nil => simp
  | cons f fs ih =>
    rw [List.foldl_cons, ih, sqlTagsStep_eq]
    simp [Bool.or_assoc]

theorem foldl_Order (fs : List Field) (acc : SQLInfo × Bool) :
    ((fs.foldl sqlTagsStep acc).1).Order = acc.1.Order ++ (fs.filter pnkB).map Field.name := by
  induction fs generalizing acc with
  | nil => simp
  | cons f fs ih =>
    rw [List.foldl_cons, ih, sqlTagsStep_eq]
    by_cases h : fget f "sql" ≠ "" ∧ fget f "key" = ""
    · simp [List.filter_cons, pnkB, h, h.1, h.2, List.append_assoc]
    · simp [List.filter_cons, pnkB, h]

theorem foldl_Table (fs : List Field) (acc : SQLInfo × Bool) :
    ((fs.foldl sqlTagsStep acc).1).Table
      = ((fs.filter tblB).map (fun f => fget f "table")).foldl (fun _ x => x) acc.1.Table := by
  induction fs generalizing acc with
  | nil => rfl
  | cons f fs ih =>
    rw [List.foldl_cons, ih, sqlTagsStep_eq]
    by_cases h : fget f "sql" ≠ "" ∧ fget f "table" ≠ ""
    · simp [List.filter_cons, tblB, h, h.1, h.2]
    · simp [List.filter_cons, tblB, h]

theorem foldl_UserField (fs : List Field) (acc : SQLInfo × Bool) :
    ((fs.foldl sqlTagsStep acc).1).UserField
      = ((fs.filter audUB).map Field.name).foldl (fun _ x => x) acc.1.UserField := by
  induction fs generalizing acc with
  | nil => rfl
  | cons f fs ih =>
    rw [List.foldl_cons, ih, sqlTagsStep_eq]
    by_cases h : fget f "audit" = "user"
    · simp [List.filter_cons, audUB, h]
    · simp [List.filter_cons, audUB, h]

theorem foldl_TimeField (fs : List Field) (acc : SQLInfo × Bool) :
    ((fs.foldl sqlTagsStep acc).1).TimeField
      = ((fs.filter audTB).map Field.name).foldl (fun _ x => x) acc.1.TimeField := by
  induction fs generalizing acc with
  | nil => rfl
  | cons f fs ih =>
    rw [List.foldl_cons, ih, sqlTagsStep_eq]
    by_cases h : fget f "audit" = "time"
    · simp [List.filter_cons, audTB, h]
    · simp [List.filter_cons, audTB, h]

theorem foldl_KeyPair (fs : List Field) (acc : SQLInfo × Bool) :
    (((fs.foldl sqlTagsStep acc).1).KeyName, ((fs.foldl sqlTagsStep acc).1).KeyField)
      = ((fs.filter keyB).map (fun f => (f.name, fget f "sql"))).foldl (fun _ x => x)
          (acc.1.KeyName, acc.1.KeyField) := by
  induction fs generalizing acc with
  | nil => rfl
  | cons f fs ih =>
    rw [List.foldl_cons, ih, sqlTagsStep_eq]
    by_cases h : fget f "sql" ≠ "" ∧ fget f "key" ≠ ""
    · simp [List.filter_cons, keyB, h, h.1, h.2]
    · simp [List.filter_cons, keyB, h]

theorem foldl_Fields (fs : List Field) (acc : SQLInfo × Bool) :
    ((fs.foldl sqlTagsStep acc).1).Fields
      = (fs.filter pnkB).foldl (fun m f => assocSet m f.name (fget f "sql")) acc.1.Fields := by
  induction fs generalizing acc with
  | nil => rfl
  | cons f fs ih =>
    rw [List.foldl_cons, ih, sqlTagsStep_eq]
    by_cases h : fget f "sql" ≠ "" ∧ fget f "key" = ""
    · simp [List.filter_cons, pnkB, h, h.1, h.2]
    · simp [List.filter_cons, pnkB, h]

theorem foldl_NoUpdate_mem (fs : List Field) (acc : SQLInfo × Bool) (k : String) :
    k ∈ ((fs.foldl sqlTagsStep acc).1).NoUpdate
      ↔ k ∈ acc.1.NoUpdate
          ∨ ∃ f ∈ fs, parseBool (fget f "update") = some false ∧ f.name = k := by
  induction fs generalizing acc with
  | nil => simp
  | cons f fs ih =>
    rw [List.foldl_cons, ih, sqlTagsStep_eq]
    by_cases h : parseBool (fget f "update") = some false
    · simp only [if_pos h, mem_setAdd, List.mem_cons]
      constructor
      · rintro ((hm | rfl) | ⟨g, hg, hp⟩)
        · exact Or.inl hm
        · exact Or.inr ⟨f, Or.inl rfl, h, rfl⟩
        · exact Or.inr ⟨g, Or.inr hg, hp⟩
      · rintro (hm | ⟨g, (rfl | hg), hp⟩)
        · exact Or.inl (Or.inl hm)
        · exact Or.inl (Or.inr hp.2.symm)
        · exact Or.inr ⟨g, hg, hp⟩
    · simp only [if_neg h, List.mem_cons]
      constructor
      · rintro (hm | ⟨g, hg, hp⟩)
        · exact Or.inl hm
        · exact Or.inr ⟨g, Or.inr hg, hp⟩
      · rintro (hm | ⟨g, (rfl | hg), hp⟩)
        · exact Or.inl hm
        · exact absurd hp.1 h
        · exact Or.inr ⟨g, hg, hp⟩

/-- Split `sqlTags fs = some info` into the fold value and the `good`
flag. -/
theorem sqlTags_some {fs : List Field} {info : SQLInfo} (h : sqlTags fs = some info) :
    info = (fs.foldl sqlTagsStep (({} : SQLInfo), false)).1
      ∧ (fs.foldl sqlTagsStep (({} : SQLInfo), false)).2 = true := by
  by_cases hg : (fs.foldl sqlTagsStep (({} : SQLInfo), false)).2 = true
  · simp only [sqlTags, hg, if_true] at h
    exact ⟨(Option.some.injEq _ _ ▸ h).symm, hg⟩
  · simp only [sqlTags] at h
    rw [Bool.not_eq_true] at hg
    rw [hg] at h
    simp at h

/-- A descriptor's `Order` lists exactly the persisted non-key fields'
member names, in declaration order. -/
theorem sqlTags_Order {fs : List Field} {info : SQLInfo} (h : sqlTags fs = some info) :
    info.Order = (fs.filter pnkB).map Field.name := by
  obtain ⟨hi, -⟩ := sqlTags_some h
  rw [hi, foldl_Order]
  rfl

/-- A descriptor's `Fields` map is the fold of map assignments over the
persisted non-key fields. -/
theorem sqlTags_Fields {fs : List Field} {info : SQLInfo} (h : sqlTags fs = some info) :
    info.Fields = (fs.filter pnkB).foldl (fun m f => assocSet m f.name (fget f "sql")) [] := by
  obtain ⟨hi, -⟩ := sqlTags_some h
  rw [hi, foldl_Fields]

/-- A descriptor's `Table` is the `table` value of the last field carrying
both a non-empty `sql` and a non-empty `table` value ( `""` if none). -/
theorem sqlTags_Table {fs : List Field} {info : SQLInfo} (h : sqlTags fs = some info) :
    info.Table = (((fs.filter tblB).map (fun f => fget f "table")).getLast?).getD "" := by
  obtain ⟨hi, -⟩ := sqlTags_some h
  rw [hi, foldl_Table, foldl_overwrite]

/-- A descriptor's key name/column pair comes from the last key-tagged
field (last-wins), or is the empty pair when no field is key-tagged. -/
theorem sqlTags_KeyPair {fs : List Field} {info : SQLInfo} (h : sqlTags fs = some info) :
    (info.KeyName, info.KeyField)
      = (((fs.filter keyB).map (fun f => (f.name, fget f "sql"))).getLast?).getD ("", "") := by
  obtain ⟨hi, -⟩ := sqlTags_some h
  rw [hi, foldl_KeyPair, foldl_overwrite]

/-- A descriptor's `NoUpdate` set holds exactly the names of fields whose
`update` tag value parses to boolean `false`. -/
theorem sqlTags_NoUpdate_mem {fs : List Field} {info : SQLInfo} (h : sqlTags fs = some info)
    (k : String) :
    k ∈ info.NoUpdate ↔ ∃ f ∈ fs, parseBool (fget f "update") = some false ∧ f.name = k := by
  obtain ⟨hi, -⟩ := sqlTags_some h
  rw [hi]
  rw [foldl_NoUpdate_mem]
  simp

/-- When every field has a name, a descriptor's `KeyName` and `KeyField`
are empty or non-empty together. -/
theorem sqlTags_key_iff {fs : List Field} {info : SQLInfo} (h : sqlTags fs = some info)
    (hn : ∀ f ∈ fs, f.name ≠ "") :
    (info.KeyName = "" ↔ info.KeyField = "") := by
  have hp := sqlTags_KeyPair h
  rcases hgl : ((fs.filter keyB).map (fun f => (f.name, fget f "sql"))).getLast? with _ | p
  · rw [hgl, Option.getD_none, Prod.mk.injEq] at hp
    rw [hp.1, hp.2]
  · rw [hgl, Option.getD_some] at hp
    have hmem : p ∈ (fs.filter keyB).map (fun f => (f.name, fget f "sql")) := by
      obtain ⟨hne, hx⟩ := List.mem_getLast?_eq_getLast (x := p) (Option.mem_def.mpr hgl)
      rw [hx]
      exact List.getLast_mem hne
    obtain ⟨f, hf, hfp⟩ := List.mem_map.mp hmem
    have hfs : f ∈ fs := List.mem_of_mem_filter hf
    have hkeyb : keyB f = true := List.of_mem_filter hf
    have hsql : fget f "sql" ≠ "" := by
      simpa [keyB] using (of_decide_eq_true hkeyb).1
    have hname : f.name ≠ "" := hn f hfs
    rw [← hfp, Prod.mk.injEq] at hp
    rw [hp.1, hp.2]
    constructor
    · intro hh; exact absurd hh hname
    · intro hh; exact absurd hh hsql

/-! ### Assoc-map lookups after the `Fields` fold -/

theorem assocGet_foldl_not_mem (l : List Field) (m : List (String × String)) (k : String)
    (h : ∀ f ∈ l, f.name ≠ k) :
    assocGet (l.foldl (fun m f => assocSet m f.name (fget f "sql")) m) k = assocGet m k := by
  induction l generalizing m with
  | nil => rfl
  | cons g gs ih =>
    rw [List.foldl_cons]
    rw [ih _ (fun f hf => h f (List.mem_cons_of_mem _ hf))]
    exact assocGet_assocSet_ne m _ (h g (List.mem_cons_self g gs))

theorem assocGet_foldl_mem (l : List Field) (m : List (String × String)) {f : Field}
    (hf : f ∈ l) (hnd : (l.map Field.name).Nodup) :
    assocGet (l.foldl (fun m f => assocSet m f.name (fget f "sql")) m) f.name
      = fget f "sql" := by
  induction l generalizing m with
  | nil => cases hf
  | cons g gs ih =>
    rw [List.foldl_cons]
    rcases List.mem_cons.mp hf with rfl | hmem
    · have hnot : ∀ x ∈ gs, x.name ≠ f.name := by
        intro x hx he
        exact (List.nodup_cons.mp hnd).1 (he ▸ List.mem_map_of_mem Field.name hx)
      rw [assocGet_foldl_not_mem gs _ _ hnot, assocGet_assocSet_self]
    · exact ih _ hmem (List.nodup_cons.mp hnd).2

/-! ### Characterizing the `buildWrappers` loop -/

theorem bw_foldl (s : SQLInfo) (order : List String) (acc : BWLists)
    (h : ∀ k ∈ order, k ≠ "") :
    order.foldl (bwStep s) acc =
      { names := acc.names ++ order.map (fun k => "\"" ++ k ++ "\"")
        elem := acc.elem ++ order.map (fun k => "o." ++ k)
        ptr := acc.ptr ++ order.map (fun k => "&o." ++ k)
        set := acc.set ++ order.map (fun k => assocGet s.Fields k ++ "=?")
        sql := acc.sql ++ order.map (fun k => assocGet s.Fields k)
        insert_fields := acc.insert_fields
          ++ (order.map (fun k => assocGet s.Fields k)).filter
               (fun v => !(s.NoUpdate.contains v)) } := by
  induction order generalizing acc with
  | nil => simp
  | cons k ks ih =>
    have hk : k ≠ "" := h k (List.mem_cons_self k ks)
    rw [List.foldl_cons, ih _ (fun x hx => h x (List.mem_cons_of_mem _ hx))]
    unfold bwStep
    rw [if_pos hk]
    by_cases hc : assocGet s.Fields k ∈ s.NoUpdate
    · simp [hc, List.filter_cons, List.append_assoc]
    · simp [hc, List.filter_cons, List.append_assoc]

/-- The slices of `buildWrappers` for a descriptor whose `Order` entries
are all non-empty. -/
theorem bwLists_char (s : SQLInfo) (h : ∀ k ∈ s.Order, k ≠ "") :
    bwLists s =
      { names := s.Order.map (fun k => "\"" ++ k ++ "\"")
        elem := s.Order.map (fun k => "o." ++ k)
        ptr := (if s.KeyName ≠ "" then ["&o." ++ s.KeyName] else [])
          ++ s.Order.map (fun k => "&o." ++ k)
        set := s.Order.map (fun k => assocGet s.Fields k ++ "=?")
        sql := (if s.KeyField ≠ "" then [s.KeyField] else [])
          ++ s.Order.map (fun k => assocGet s.Fields k)
        insert_fields := (s.Order.map (fun k => assocGet s.Fields k)).filter
          (fun v => !(s.NoUpdate.contains v)) } := by
  unfold bwLists bwInit
  rw [bw_foldl s s.Order _ h]
  simp

/-- Entries of a descriptor's `Order` are non-empty whenever all field
names are. -/
theorem order_entries_ne {fs : List Field} {info : SQLInfo} (h : sqlTags fs = some info)
    (hn : ∀ f ∈ fs, f.name ≠ "") : ∀ k ∈ info.Order, k ≠ "" := by
  rw [sqlTags_Order h]
  intro k hk
  obtain ⟨f, hf, rfl⟩ := List.mem_map.mp hk
  exact hn f (List.mem_of_mem_filter hf)

theorem pnk_names_nodup {fs : List Field} (hnd : (fs.map Field.name).Nodup) :
    ((fs.filter pnkB).map Field.name).Nodup :=
  List.Nodup.sublist (List.Sublist.map Field.name (List.filter_sublist fs)) hnd

/-- The `sql` slice of `buildWrappers`, in terms of the original fields:
the key column first (when present), then the `sql` values of the
persisted non-key fields in declaration order. -/
theorem bw_sql_char {fs : List Field} {info : SQLInfo} (h : sqlTags fs = some info)
    (hn : ∀ f ∈ fs, f.name ≠ "") (hnd : (fs.map Field.name).Nodup) :
    (bwLists info).sql = (if info.KeyField ≠ "" then [info.KeyField] else [])
      ++ (fs.filter pnkB).map (fun f => fget f "sql") := by
  rw [bwLists_char info (order_entries_ne h hn)]
  show _ ++ _ = _
  congr 1
  rw [sqlTags_Order h, List.map_map]
  refine List.map_congr_left (fun f hf => ?_)
  rw [Function.comp_apply, sqlTags_Fields h]
  exact assocGet_foldl_mem _ _ hf (pnk_names_nodup hnd)

/-- The `ptr` slice of `buildWrappers`, in terms of the original fields:
the key member's address first (when present), then the persisted non-key
members' addresses in declaration order. -/
theorem bw_ptr_char {fs : List Field} {info : SQLInfo} (h : sqlTags fs = some info)
    (hn : ∀ f ∈ fs, f.name ≠ "") :
    (bwLists info).ptr = (if info.KeyName ≠ "" then ["&o." ++ info.KeyName] else [])
      ++ (fs.filter pnkB).map (fun f => "&o." ++ f.name) := by
  rw [bwLists_char info (order_entries_ne h hn)]
  show _ ++ _ = _
  congr 1
  rw [sqlTags_Order h, List.map_map]
  rfl

/-- The `elem` slice of `buildWrappers`, in terms of the original fields:
the persisted non-key members in declaration order (no key). -/
theorem bw_elem_char {fs : List Field} {info : SQLInfo} (h : sqlTags fs = some info)
    (hn : ∀ f ∈ fs, f.name ≠ "") :
    (bwLists info).elem = (fs.filter pnkB).map (fun f => "o." ++ f.name) := by
  rw [bwLists_char info (order_entries_ne h hn)]
  dsimp only
  rw [sqlTags_Order h, List.map_map]
  rfl

/-! ### Example inputs for the claims -/

/-- The spec's own example struct: key column `id`, one further column
`name`. -/
def exC1 : List Field :=
  [⟨"ID", some [("sql", "id"), ("key", "true"), ("table", "t")]⟩,
   ⟨"Name", some [("sql", "name")]⟩]

/-- The descriptor `sqlTags` produces for `exC1`. -/
def c1info : SQLInfo :=
  { Table := "t", KeyName := "ID", KeyField := "id",
    Order := ["Name"], Fields := [("Name", "name")] }

/-- A struct whose key field carries `update:"false"`. -/
def exC2 : List Field :=
  [⟨"ID", some [("sql", "id"), ("key", "true"), ("update", "false")]⟩]

/-- The descriptor `sqlTags` produces for `exC2`. -/
def c2info : SQLInfo := { KeyName := "ID", KeyField := "id", NoUpdate := ["ID"] }

/-- A struct with one persisted field and one field carrying only an
`audit` tag (no `sql` value). -/
def exC3 : List Field :=
  [⟨"A", some [("sql", "a")]⟩, ⟨"U", some [("audit", "user")]⟩]

/-- A struct whose last `table`-tagged field has no `sql` value. -/
def exC4 : List Field :=
  [⟨"A", some [("sql", "a"), ("table", "t1")]⟩, ⟨"B", some [("table", "t2")]⟩]

/-- The descriptor `sqlTags` produces for `exC4`. -/
def c4info : SQLInfo := { Table := "t1", Order := ["A"], Fields := [("A", "a")] }

/-! ### Claim C1 -/

/-- C1 counterexample: at the spec's own example (key column `id`, other
column `name`), the string substituted into the generated `InsertFields()`
is `"id,name"` — the key column is included — not `"name"` as the claim
states. -/
theorem C1_counterexample :
    (sqlTags exC1).map insertFieldsRet = some "id,name"
      ∧ (sqlTags exC1).map (fun i => stringInsertFields "T" (insertFieldsRet i))
          = some "func (o *T) InsertFields() string \x7b\n\treturn \"id,name\"\n\x7d\n\n"
      ∧ ("id,name" : String) ≠ "name" := by
  refine ⟨by decide, by decide, by decide⟩

/-- C1 (amended): for a descriptor with a key field, `InsertFields()`
returns the comma-join of the key column followed by every persisted
non-key column (regardless of `NoUpdate`), identically to
`SelectFields()`; `InsertValues()` lists the values of the persisted
non-key fields only. -/
theorem C1_insertFields_includes_key (fs : List Field) (info : SQLInfo)
    (h : sqlTags fs = some info) (hn : ∀ f ∈ fs, f.name ≠ "")
    (hnd : (fs.map Field.name).Nodup) (hk : info.KeyField ≠ "") :
    insertFieldsRet info
        = String.intercalate ","
            (info.KeyField :: (fs.filter pnkB).map (fun f => fget f "sql"))
      ∧ insertFieldsRet info = selectFieldsRet info
      ∧ insertValuesList info = (fs.filter pnkB).map (fun f => "o." ++ f.name) := by
  refine ⟨?_, rfl, bw_elem_char h hn⟩
  unfold insertFieldsRet
  rw [bw_sql_char h hn hnd, if_pos hk]
  rfl

theorem C1_insertFields_includes_key_witness :
    (sqlTags exC1 = some c1info ∧ (∀ f ∈ exC1, f.name ≠ "")
        ∧ (exC1.map Field.name).Nodup ∧ c1info.KeyField ≠ "")
      ∧ (insertFieldsRet c1info
            = String.intercalate ","
                (c1info.KeyField :: (exC1.filter pnkB).map (fun f => fget f "sql"))
          ∧ insertFieldsRet c1info = selectFieldsRet c1info
          ∧ insertValuesList c1info = (exC1.filter pnkB).map (fun f => "o." ++ f.name)) :=
  ⟨⟨by decide, by decide, by decide, by decide⟩,
   C1_insertFields_includes_key exC1 c1info (by decide) (by decide) (by decide) (by decide)⟩

/-! ### Claim C2 -/

/-- C2 counterexample: the key field of `exC2` carries `update:"false"`
and is recorded in `NoUpdate`, though the claim states the key field is
never added. -/
theorem C2_counterexample :
    sqlTags exC2 = some c2info
      ∧ c2info.KeyName = "ID" ∧ "ID" ∈ c2info.NoUpdate := by
  refine ⟨by decide, by decide, by decide⟩

/-- C2 (amended): a field is recorded in `NoUpdate` exactly when its
`update` tag value parses to boolean `false` — whether or not it is the
key field; a malformed (unparsable) value never adds a field. -/
theorem C2_noUpdate_iff (fs : List Field) (info : SQLInfo)
    (h : sqlTags fs = some info) (k : String) :
    k ∈ info.NoUpdate
      ↔ ∃ f ∈ fs, parseBool (fget f "update") = some false ∧ f.name = k :=
  sqlTags_NoUpdate_mem h k

theorem C2_noUpdate_iff_witness :
    sqlTags exC2 = some c2info
      ∧ ("ID" ∈ c2info.NoUpdate
          ↔ ∃ f ∈ exC2, parseBool (fget f "update") = some false ∧ f.name = "ID") :=
  ⟨by decide, C2_noUpdate_iff exC2 c2info (by decide) "ID"⟩

/-! ### Claim C3 -/

/-- The descriptor components a field needs a non-empty `sql` value to
influence: table, key name, key column, column map and column order. -/
def coreProj (i : SQLInfo) :
    String × String × String × List (String × String) × List String :=
  (i.Table, i.KeyName, i.KeyField, i.Fields, i.Order)

/-- C3 counterexample: the field `U` of `exC3` has no `sql` value, yet it
sets the descriptor's audit role, whose name then appears in the generated
`ModifiedBy` method body. -/
theorem C3_counterexample :
    (sqlTags exC3).map SQLInfo.UserField = some "U"
      ∧ fget (⟨"U", some [("audit", "user")]⟩ : Field) "sql" = ""
      ∧ (sqlTags exC3).map (fun i => auditString "T" i.UserField i.TimeField)
          = some "func (o *T) ModifiedBy(user int64, t time.Time) \x7b\no.U = &user\n\x7d\n\n\n" := by
  refine ⟨by decide, by decide, by decide⟩

/-- One loop step maps equal core projections (and equal `good` flags) to
equal core projections, for the same field. -/
theorem step_core_congr (f : Field) (acc1 acc2 : SQLInfo × Bool)
    (hc : coreProj acc1.1 = coreProj acc2.1) (hg : acc1.2 = acc2.2) :
    coreProj ((sqlTagsStep acc1 f).1) = coreProj ((sqlTagsStep acc2 f).1)
      ∧ (sqlTagsStep acc1 f).2 = (sqlTagsStep acc2 f).2 := by
  simp only [coreProj, Prod.mk.injEq] at hc
  obtain ⟨h1, h2, h3, h4, h5⟩ := hc
  rw [sqlTagsStep_eq, sqlTagsStep_eq]
  constructor
  · dsimp only [coreProj]
    rw [h1, h2, h3, h4, h5]
  · dsimp only
    rw [hg]

/-- A field with no `sql` value leaves the core projection and the `good`
flag unchanged. -/
theorem step_core_skip (f : Field) (acc : SQLInfo × Bool) (hf : fget f "sql" = "") :
    coreProj ((sqlTagsStep acc f).1) = coreProj acc.1
      ∧ (sqlTagsStep acc f).2 = acc.2 := by
  rw [sqlTagsStep_eq]
  constructor
  · dsimp only [coreProj]
    simp [hf]
  · dsimp only
    simp [sqlB, hf]

theorem foldl_core_filter (fs : List Field) (acc1 acc2 : SQLInfo × Bool)
    (hc : coreProj acc1.1 = coreProj acc2.1) (hg : acc1.2 = acc2.2) :
    coreProj ((fs.foldl sqlTagsStep acc1).1)
        = coreProj (((fs.filter sqlB).foldl sqlTagsStep acc2).1)
      ∧ (fs.foldl sqlTagsStep acc1).2 = ((fs.filter sqlB).foldl sqlTagsStep acc2).2 := by
  induction fs generalizing acc1 acc2 with
  | nil => exact ⟨hc, hg⟩
  | cons f fs ih =>
    by_cases hf : sqlB f = true
    · rw [List.foldl_cons, List.filter_cons_of_pos hf, List.foldl_cons]
      obtain ⟨hc1, hg1⟩ := step_core_congr f acc1 acc2 hc hg
      exact ih _ _ hc1 hg1
    · rw [List.foldl_cons, List.filter_cons_of_neg (by simpa using hf)]
      have hs : fget f "sql" = "" := by simpa [sqlB] using hf
      obtain ⟨hcs, hgs⟩ := step_core_skip f acc1 hs
      exact ih _ _ (hcs.trans hc) (hgs.trans hg)

/-- C3 (amended): fields with no non-empty `sql` value contribute nothing
to the descriptor's table, key, column map or column order, nor to its
existence: dropping all of them changes none of these.  (They can still
set an audit role or a `NoUpdate` entry — see the counterexample.) -/
theorem C3_no_sql_core_invariant (fs : List Field) :
    (sqlTags fs).map coreProj = (sqlTags (fs.filter sqlB)).map coreProj := by
  obtain ⟨hc, hg⟩ := foldl_core_filter fs (({} : SQLInfo), false) (({} : SQLInfo), false) rfl rfl
  by_cases hgo : (fs.foldl sqlTagsStep (({} : SQLInfo), false)).2 = true
  · unfold sqlTags
    rw [if_pos hgo, if_pos (hg ▸ hgo)]
    simp [hc]
  · unfold sqlTags
    rw [if_neg hgo, if_neg (by rw [← hg]; exact hgo)]

/-! ### Claim C4 -/

/-- C4 counterexample: in `exC4` the last field carrying a non-empty
`table` value is `B` with `"t2"`, but `B` has no `sql` value, so the
descriptor's table — and the generated `TableName()` body — is `"t1"`. -/
theorem C4_counterexample :
    (sqlTags exC4).map SQLInfo.Table = some "t1"
      ∧ fget (⟨"B", some [("table", "t2")]⟩ : Field) "table" = "t2"
      ∧ (sqlTags exC4).map (fun i => stringTableName "T" i.Table)
          = some "func (o *T) TableName() string \x7b\n\treturn \"t1\"\n\x7d\n\n"
      ∧ ("t1" : String) ≠ "t2" := by
  refine ⟨by decide, by decide, by decide, by decide⟩

/-- C4 (amended): the descriptor's table — returned by the generated
`TableName()` — is the `table` value of the last field in declaration
order carrying both a non-empty `sql` value and a non-empty `table`
value (last-wins among `sql`-tagged fields). -/
theorem C4_table_last_wins (fs : List Field) (info : SQLInfo)
    (h : sqlTags fs = some info) :
    info.Table = (((fs.filter tblB).map (fun f => fget f "table")).getLast?).getD ""
      ∧ tableNameRet info
          = (((fs.filter tblB).map (fun f => fget f "table")).getLast?).getD "" :=
  ⟨sqlTags_Table h, sqlTags_Table h⟩

theorem C4_table_last_wins_witness :
    sqlTags exC4 = some c4info
      ∧ (c4info.Table = (((exC4.filter tblB).map (fun f => fget f "table")).getLast?).getD ""
          ∧ tableNameRet c4info
              = (((exC4.filter tblB).map (fun f => fget f "table")).getLast?).getD "") :=
  ⟨by decide, C4_table_last_wins exC4 c4info (by decide)⟩

/-! ### Claim C5 -/

/-- A three-field example struct with a key. -/
def exC5 : List Field :=
  [⟨"ID", some [("sql", "id"), ("key", "true"), ("table", "u")]⟩,
   ⟨"A", some [("sql", "colA")]⟩,
   ⟨"B", some [("sql", "colB")]⟩]

/-- The descriptor `sqlTags` produces for `exC5`. -/
def c5info : SQLInfo :=
  { Table := "u", KeyName := "ID", KeyField := "id",
    Order := ["A", "B"], Fields := [("A", "colA"), ("B", "colB")] }

/-- C5: the generated `SelectFields()` column list and the generated
`MemberPointers()` address list run over the same field sequence in the
same positional order — key first when present, then the persisted
non-key fields in declaration order. -/
theorem C5_select_memberPointers_align (fs : List Field) (info : SQLInfo)
    (h : sqlTags fs = some info) (hn : ∀ f ∈ fs, f.name ≠ "")
    (hnd : (fs.map Field.name).Nodup) :
    selectFieldsRet info
        = String.intercalate ","
            ((if info.KeyField ≠ "" then [info.KeyField] else [])
              ++ (fs.filter pnkB).map (fun f => fget f "sql"))
      ∧ memberPointersList info
          = (if info.KeyField ≠ "" then ["&o." ++ info.KeyName] else [])
              ++ (fs.filter pnkB).map (fun f => "&o." ++ f.name) := by
  constructor
  · unfold selectFieldsRet
    rw [bw_sql_char h hn hnd]
  · unfold memberPointersList
    rw [bw_ptr_char h hn]
    by_cases hk : info.KeyField = ""
    · have hk2 : info.KeyName = "" := (sqlTags_key_iff h hn).mpr hk
      simp [hk, hk2]
    · have hk2 : info.KeyName ≠ "" := fun he => hk ((sqlTags_key_iff h hn).mp he)
      simp [hk, hk2]

theorem C5_select_memberPointers_align_witness :
    (sqlTags exC5 = some c5info ∧ (∀ f ∈ exC5, f.name ≠ "")
        ∧ (exC5.map Field.name).Nodup)
      ∧ (selectFieldsRet c5info
            = String.intercalate ","
                ((if c5info.KeyField ≠ "" then [c5info.KeyField] else [])
                  ++ (exC5.filter pnkB).map (fun f => fget f "sql"))
          ∧ memberPointersList c5info
              = (if c5info.KeyField ≠ "" then ["&o." ++ c5info.KeyName] else [])
                  ++ (exC5.filter pnkB).map (fun f => "&o." ++ f.name)) :=
  ⟨⟨by decide, by decide, by decide⟩,
   C5_select_memberPointers_align exC5 c5info (by decide) (by decide) (by decide)⟩

/-! ### Claim C6 -/

/-- Example struct for the update-values claim, with a `NoUpdate` entry. -/
def exC6 : List Field :=
  [⟨"ID", some [("sql", "id"), ("key", "true"), ("table", "v")]⟩,
   ⟨"C", some [("sql", "c")]⟩,
   ⟨"D", some [("sql", "d"), ("update", "false")]⟩]

/-- The descriptor `sqlTags` produces for `exC6`. -/
def c6info : SQLInfo :=
  { Table := "v", KeyName := "ID", KeyField := "id",
    Order := ["C", "D"], Fields := [("C", "c"), ("D", "d")], NoUpdate := ["D"] }

/-- C6: for a descriptor with a key, `UpdateValues()` lists the values of
all persisted non-key fields in declaration order and then the key value,
so its length is the number of persisted non-key fields plus one; the
`NoUpdate` set has no influence on it. -/
theorem C6_updateValues_key_last (fs : List Field) (info : SQLInfo)
    (h : sqlTags fs = some info) (hn : ∀ f ∈ fs, f.name ≠ "")
    (hk : info.KeyName ≠ "") :
    updateValuesList info
        = (fs.filter pnkB).map (fun f => "o." ++ f.name) ++ ["o." ++ info.KeyName]
      ∧ (updateValuesList info).length = (fs.filter pnkB).length + 1
      ∧ ∀ nu : List String,
          updateValuesList { info with NoUpdate := nu } = updateValuesList info := by
  have h1 : updateValuesList info
      = (fs.filter pnkB).map (fun f => "o." ++ f.name) ++ ["o." ++ info.KeyName] := by
    unfold updateValuesList
    rw [if_pos hk, bw_elem_char h hn]
  refine ⟨h1, ?_, ?_⟩
  · rw [h1]
    simp
  · intro nu
    have hOrd := order_entries_ne h hn
    unfold updateValuesList
    rw [bwLists_char { info with NoUpdate := nu } hOrd, bwLists_char info hOrd]

theorem C6_updateValues_key_last_witness :
    (sqlTags exC6 = some c6info ∧ (∀ f ∈ exC6, f.name ≠ "") ∧ c6info.KeyName ≠ "")
      ∧ (updateValuesList c6info
            = (exC6.filter pnkB).map (fun f => "o." ++ f.name) ++ ["o." ++ c6info.KeyName]
          ∧ (updateValuesList c6info).length = (exC6.filter pnkB).length + 1
          ∧ ∀ nu : List String,
              updateValuesList { c6info with NoUpdate := nu } = updateValuesList c6info) :=
  ⟨⟨by decide, by decide, by decide⟩,
   C6_updateValues_key_last exC6 c6info (by decide) (by decide) (by decide)⟩

/-! ### Claim C7 -/

/-- Example input for the determinism witness. -/
def exC7 : List StructDecl :=
  [⟨"W", [⟨"ID", some [("sql", "id"), ("key", "true"), ("table", "w")]⟩,
          ⟨"V", some [("sql", "v")]⟩]⟩]

/-- C7: generation is a pure function of the source structs and the
type-name filter — two runs over equal inputs produce equal output
text. -/
theorem C7_deterministic (n1 n2 : String) (s1 s2 : List StructDecl)
    (hn : n1 = n2) (hs : s1 = s2) :
    generatorOutput n1 s1 = generatorOutput n2 s2 := by
  rw [hn, hs]

theorem C7_deterministic_witness :
    ("" : String) = "" ∧ exC7 = exC7
      ∧ generatorOutput "" exC7 = generatorOutput "" exC7 :=
  ⟨rfl, rfl, C7_deterministic "" "" exC7 exC7 rfl rfl⟩

/-! ### Claim C8 -/

/-- A struct none of whose fields has a non-empty `sql` value (one field
untagged, one with only `audit`/`update` tags). -/
def exC8 : List Field :=
  [⟨"X", none⟩, ⟨"Y", some [("audit", "user"), ("update", "nope")]⟩]

/-- Neighbouring structs for the skip witness. -/
def exC8pre : List StructDecl := [⟨"P", [⟨"K", some [("sql", "k")]⟩]⟩]

/-- Neighbouring structs for the skip witness, after the skipped one. -/
def exC8post : List StructDecl := [⟨"Q", [⟨"M", some [("sql", "m"), ("table", "q")]⟩]⟩]

/-- C8: a struct with no `sql`-tagged field yields no descriptor at all,
and the generator emits zero method blocks for it: its presence leaves
the output unchanged (and no error path exists in `genDecl`). -/
theorem C8_no_sql_struct_skipped (fs : List Field)
    (hno : ∀ f ∈ fs, fget f "sql" = "") :
    sqlTags fs = none
      ∧ ∀ (findName name : String) (pre post : List StructDecl),
          generatorOutput findName (pre ++ ⟨name, fs⟩ :: post)
            = generatorOutput findName (pre ++ post) := by
  have hany : fs.any sqlB = false := by
    rw [List.any_eq_false]
    intro f hf
    simp [sqlB, hno f hf]
  have hnone : sqlTags fs = none := by
    show (if (fs.foldl sqlTagsStep (({} : SQLInfo), false)).2 = true
          then some (fs.foldl sqlTagsStep (({} : SQLInfo), false)).1 else none) = none
    rw [foldl_good]
    simp [hany]
  refine ⟨hnone, ?_⟩
  intro findName name pre post
  have hv : genDeclValue findName ⟨name, fs⟩ = none := by
    unfold genDeclValue
    split_ifs <;> simp [hnone]
  unfold generatorOutput fileValues
  rw [List.filterMap_append, List.filterMap_append, List.filterMap_cons_none hv]

theorem C8_no_sql_struct_skipped_witness :
    (∀ f ∈ exC8, fget f "sql" = "")
      ∧ sqlTags exC8 = none
      ∧ generatorOutput "" (exC8pre ++ ⟨"E", exC8⟩ :: exC8post)
          = generatorOutput "" (exC8pre ++ exC8post) :=
  ⟨by decide,
   (C8_no_sql_struct_skipped exC8 (by decide)).1,
   (C8_no_sql_struct_skipped exC8 (by decide)).2 "" "E" exC8pre exC8post⟩

/-! ### Claim C9 -/

/-- C9: the string returned by the generated `InsertFields()` equals the
string returned by the generated `SelectFields()`: both `Printf` calls
(main.go:471-472) substitute `strings.Join(sql, ",")`. -/
theorem C9_insertFields_eq_selectFields (info : SQLInfo) :
    insertFieldsRet info = selectFieldsRet info := rfl

/-! ### Claim C10 -/

/-- Two fields that agree on everything the generator reads except the
`update` tag value. -/
def updAgnostic (f1 f2 : Field) : Prop :=
  f1.name = f2.name ∧ fget f1 "sql" = fget f2 "sql" ∧ fget f1 "table" = fget f2 "table"
    ∧ fget f1 "key" = fget f2 "key" ∧ fget f1 "audit" = fget f2 "audit"

/-- Two struct declarations identical except for `update` tag values. -/
def structUpdAgnostic (s1 s2 : StructDecl) : Prop :=
  s1.name = s2.name ∧ List.Forall₂ updAgnostic s1.fields s2.fields

/-- Every descriptor component except `NoUpdate`. -/
def nonUpdProj (i : SQLInfo) :=
  (i.Name, i.Table, i.KeyName, i.KeyField, i.UserField, i.TimeField, i.Order, i.Fields)

theorem step_nonupd_congr (f1 f2 : Field) (h : updAgnostic f1 f2)
    (acc1 acc2 : SQLInfo × Bool)
    (hc : nonUpdProj acc1.1 = nonUpdProj acc2.1) (hg : acc1.2 = acc2.2) :
    nonUpdProj ((sqlTagsStep acc1 f1).1) = nonUpdProj ((sqlTagsStep acc2 f2).1)
      ∧ (sqlTagsStep acc1 f1).2 = (sqlTagsStep acc2 f2).2 := by
  obtain ⟨hname, hs, ht, hk, ha⟩ := h
  simp only [nonUpdProj, Prod.mk.injEq] at hc
  obtain ⟨h1, h2, h3, h4, h5, h6, h7, h8⟩ := hc
  rw [sqlTagsStep_eq, sqlTagsStep_eq]
  constructor
  · dsimp only [nonUpdProj]
    rw [hname, hs, ht, hk, ha, h1, h2, h3, h4, h5, h6, h7, h8]
  · dsimp only
    rw [hg]
    simp [sqlB, hs]

theorem foldl_nonupd_congr (fs1 fs2 : List Field) (h : List.Forall₂ updAgnostic fs1 fs2)
    (acc1 acc2 : SQLInfo × Bool)
    (hc : nonUpdProj acc1.1 = nonUpdProj acc2.1) (hg : acc1.2 = acc2.2) :
    nonUpdProj ((fs1.foldl sqlTagsStep acc1).1) = nonUpdProj ((fs2.foldl sqlTagsStep acc2).1)
      ∧ (fs1.foldl sqlTagsStep acc1).2 = (fs2.foldl sqlTagsStep acc2).2 := by
  induction h generalizing acc1 acc2 with
  | nil => exact ⟨hc, hg⟩
  | cons hf hrest ih =>
    rw [List.foldl_cons, List.foldl_cons]
    obtain ⟨hc1, hg1⟩ := step_nonupd_congr _ _ hf acc1 acc2 hc hg
    exact ih _ _ hc1 hg1

theorem sqlTags_nonupd_congr (fs1 fs2 : List Field)
    (h : List.Forall₂ updAgnostic fs1 fs2) :
    (sqlTags fs1 = none ∧ sqlTags fs2 = none)
      ∨ ∃ i1 i2, sqlTags fs1 = some i1 ∧ sqlTags fs2 = some i2
          ∧ nonUpdProj i1 = nonUpdProj i2 := by
  obtain ⟨hc, hg⟩ :=
    foldl_nonupd_congr fs1 fs2 h (({} : SQLInfo), false) (({} : SQLInfo), false) rfl rfl
  by_cases hgo : (fs1.foldl sqlTagsStep (({} : SQLInfo), false)).2 = true
  · right
    refine ⟨_, _, ?_, ?_, hc⟩
    · show (if (fs1.foldl sqlTagsStep (({} : SQLInfo), false)).2 = true
            then some (fs1.foldl sqlTagsStep (({} : SQLInfo), false)).1 else none)
          = some (fs1.foldl sqlTagsStep (({} : SQLInfo), false)).1
      rw [if_pos hgo]
    · show (if (fs2.foldl sqlTagsStep (({} : SQLInfo), false)).2 = true
            then some (fs2.foldl sqlTagsStep (({} : SQLInfo), false)).1 else none)
          = some (fs2.foldl sqlTagsStep (({} : SQLInfo), false)).1
      rw [if_pos (hg ▸ hgo)]
  · left
    constructor
    · show (if (fs1.foldl sqlTagsStep (({} : SQLInfo), false)).2 = true
            then some (fs1.foldl sqlTagsStep (({} : SQLInfo), false)).1 else none) = none
      rw [if_neg hgo]
    · show (if (fs2.foldl sqlTagsStep (({} : SQLInfo), false)).2 = true
            then some (fs2.foldl sqlTagsStep (({} : SQLInfo), false)).1 else none) = none
      rw [if_neg (by rw [← hg]; exact hgo)]

/-- The components of `BWLists` that `buildWrappers` actually prints
(everything except the dead `insert_fields` slice). -/
def bwCore (l : BWLists) :
    List String × List String × List String × List String × List String :=
  (l.names, l.elem, l.ptr, l.set, l.sql)

theorem bwStep_core_congr (s1 s2 : SQLInfo) (hF : s1.Fields = s2.Fields)
    (acc1 acc2 : BWLists) (hc : bwCore acc1 = bwCore acc2) (k : String) :
    bwCore (bwStep s1 acc1 k) = bwCore (bwStep s2 acc2 k) := by
  simp only [bwCore, Prod.mk.injEq] at hc
  obtain ⟨h1, h2, h3, h4, h5⟩ := hc
  unfold bwStep
  by_cases hk : k ≠ ""
  · rw [if_pos hk, if_pos hk]
    dsimp only [bwCore]
    rw [h1, h2, h3, h4, h5, hF]
  · rw [if_neg hk, if_neg hk]
    dsimp only [bwCore]
    rw [h1, h2, h3, h4, h5]

theorem bwFold_core_congr (order : List String) (s1 s2 : SQLInfo)
    (hF : s1.Fields = s2.Fields) (acc1 acc2 : BWLists) (hc : bwCore acc1 = bwCore acc2) :
    bwCore (order.foldl (bwStep s1) acc1) = bwCore (order.foldl (bwStep s2) acc2) := by
  induction order generalizing acc1 acc2 with
  | nil => exact hc
  | cons k ks ih =>
    rw [List.foldl_cons, List.foldl_cons]
    exact ih _ _ (bwStep_core_congr s1 s2 hF acc1 acc2 hc k)

theorem bwLists_core_congr (i1 i2 : SQLInfo) (h : nonUpdProj i1 = nonUpdProj i2) :
    bwCore (bwLists i1) = bwCore (bwLists i2) := by
  simp only [nonUpdProj, Prod.mk.injEq] at h
  obtain ⟨hN, hT, hKN, hKF, hU, hTi, hO, hF⟩ := h
  unfold bwLists
  rw [hO]
  apply bwFold_core_congr _ _ _ hF
  unfold bwInit
  dsimp only [bwCore]
  rw [hKN, hKF]

/-- The whole generated block for a descriptor depends only on the
components other than `NoUpdate`. -/
theorem buildWrappersText_congr (i1 i2 : SQLInfo) (h : nonUpdProj i1 = nonUpdProj i2) :
    buildWrappersText i1 = buildWrappersText i2 := by
  have hbw := bwLists_core_congr i1 i2 h
  simp only [bwCore, Prod.mk.injEq] at hbw
  obtain ⟨hnames, helem, hptr, hset, hsql⟩ := hbw
  simp only [nonUpdProj, Prod.mk.injEq] at h
  obtain ⟨hN, hT, hKN, hKF, hU, hTi, hO, hF⟩ := h
  unfold buildWrappersText updateValuesList insertValuesList selectFieldsRet
    insertFieldsRet tableNameRet memberPointersList
  rw [hN, hT, hKN, hKF, hU, hTi, helem, hptr, hsql, hnames]

/-- C10: two struct lists identical except for `update` tag values produce
byte-identical generator output — `NoUpdate` (and the `insert_fields`
slice filtered by it) never reaches the printed text. -/
theorem C10_update_tags_no_output_effect (findName : String) (s1 s2 : List StructDecl)
    (h : List.Forall₂ structUpdAgnostic s1 s2) :
    generatorOutput findName s1 = generatorOutput findName s2 := by
  unfold generatorOutput fileValues
  induction h with
  | nil => rfl
  | @cons a b l1 l2 hst hrest ih =>
    obtain ⟨hname, hfields⟩ := hst
    have hcond : (findName = "" ∨ findName = a.name) ↔ (findName = "" ∨ findName = b.name) := by
      rw [hname]
    rcases sqlTags_nonupd_congr _ _ hfields with ⟨hn1, hn2⟩ | ⟨i1, i2, hi1, hi2, hproj⟩
    · have hv1 : genDeclValue findName a = none := by
        unfold genDeclValue
        split_ifs <;> simp [hn1]
      have hv2 : genDeclValue findName b = none := by
        unfold genDeclValue
        split_ifs <;> simp [hn2]
      simp only [List.filterMap_cons, hv1, hv2]
      exact ih
    · by_cases hmatch : findName = "" ∨ findName = a.name
      · have hmatch2 : findName = "" ∨ findName = b.name := hcond.mp hmatch
        have hv1 : genDeclValue findName a = some { i1 with Name := a.name } := by
          unfold genDeclValue
          rw [if_pos hmatch, hi1]
          rfl
        have hv2 : genDeclValue findName b = some { i2 with Name := b.name } := by
          unfold genDeclValue
          rw [if_pos hmatch2, hi2]
          rfl
        have htext : buildWrappersText { i1 with Name := a.name }
            = buildWrappersText { i2 with Name := b.name } := by
          apply buildWrappersText_congr
          simp only [nonUpdProj, Prod.mk.injEq] at hproj ⊢
          obtain ⟨-, p2, p3, p4, p5, p6, p7, p8⟩ := hproj
          exact ⟨hname, p2, p3, p4, p5, p6, p7, p8⟩
        simp only [List.filterMap_cons, hv1, hv2, List.map_cons, genConcat]
        rw [htext, ih]
      · have hmatch2 : ¬(findName = "" ∨ findName = b.name) := fun hh => hmatch (hcond.mpr hh)
        have hv1 : genDeclValue findName a = none := by
          unfold genDeclValue
          rw [if_neg hmatch]
        have hv2 : genDeclValue findName b = none := by
          unfold genDeclValue
          rw [if_neg hmatch2]
        simp only [List.filterMap_cons, hv1, hv2]
        exact ih

/-- Input for the C10 witness: one struct with `update:"false"` on a
column. -/
def exC10a : List StructDecl :=
  [⟨"S", [⟨"ID", some [("sql", "id"), ("key", "true"), ("table", "s")]⟩,
          ⟨"N", some [("sql", "n"), ("update", "false")]⟩]⟩]

/-- Input for the C10 witness: the same struct without the `update`
tag. -/
def exC10b : List StructDecl :=
  [⟨"S", [⟨"ID", some [("sql", "id"), ("key", "true"), ("table", "s")]⟩,
          ⟨"N", some [("sql", "n")]⟩]⟩]

theorem C10_update_tags_no_output_effect_witness :
    List.Forall₂ structUpdAgnostic exC10a exC10b
      ∧ generatorOutput "" exC10a = generatorOutput "" exC10b :=
  have hrel : List.Forall₂ structUpdAgnostic exC10a exC10b :=
    List.Forall₂.cons
      ⟨rfl, List.Forall₂.cons ⟨rfl, rfl, rfl, rfl, rfl⟩
        (List.Forall₂.cons ⟨by decide, by decide, by decide, by decide, by decide⟩
          List.Forall₂.nil)⟩
      List.Forall₂.nil
  ⟨hrel, C10_update_tags_no_output_effect "" exC10a exC10b hrel⟩

end Dbgen
